import Mathlib

/-!
Shallow embedding of `src/mod_accounting.c` (libapache2-mod-accounting).

The module has two hooks: `module_accounting_start` (post_read_request) and
`module_accounting_stop` (log_transaction), plus two pure helpers
`time_difference` and `block_difference`.  Machine `long`/`long long`
arithmetic is modelled with unbounded `Int`: on the module's targets both
types are 64-bit and the values involved (wall-clock timestamps in seconds,
microsecond components, rusage block counts) never approach `2^63`, so the
mathematical integers coincide with the machine computation and no wrap is
introduced anywhere in the translated code paths.

Logging (`ap_log_error`) is modelled by returning a list of `LogMsg` values;
the request-node graph (`main` / `prev` / `next` pointers of `request_rec`)
is a finite graph on `Fin n`, and the `notes` tables are modelled as one
string-keyed store per node.  The C `while` loops over `main`/`prev`/`next`
are modelled with an explicit fuel parameter; for finite acyclic chains
(the documented assumption) enough fuel always exists, and running out of
fuel yields `none`, a case proved unreachable under the acyclicity
hypotheses.
-/

namespace ModAccounting

/-- Model of `struct timeval`: seconds and microseconds (`time_t` / `suseconds_t`,
both `long` on the target). -/
structure Timeval where
  tv_sec : Int
  tv_usec : Int
deriving DecidableEq, Repr

/-- The fields of `struct rusage` the module reads: `ru_utime`, `ru_stime`,
`ru_inblock`, `ru_oublock`. -/
structure Rusage where
  ru_utime : Timeval
  ru_stime : Timeval
  ru_inblock : Int
  ru_oublock : Int
deriving DecidableEq, Repr

/-- The struct `acc_data`: the begin reference values stored in the notes table.  The
trailing `char zero` padding byte of the C struct carries no information and
is not modelled. -/
structure AccData where
  begin_time : Timeval
  begin_own_usage : Rusage
  begin_child_usage : Rusage
deriving DecidableEq, Repr

/-- One `ap_log_error` call.  The constructors carry exactly the values the
corresponding C format string prints. -/
inductive LogMsg where
  | timetravel (bsec busec esec eusec : Int)
  | negblock (b e : Int)
  | beginTimeFail
  | beginSelfFail
  | beginChildFail
  | endTimeFail
  | endSelfFail
  | endChildFail
  | missingData
deriving DecidableEq, Repr

/-- The return value of both hooks (`DECLINED` in the C code). -/
inductive ApStatus where
  | declined
deriving DecidableEq, Repr

/-- The function `time_difference` (mod_accounting.c lines 88-131): lexicographic sanity
check, then `(end.tv_sec - begin.tv_sec) * 1000000 + (end.tv_usec -
begin.tv_usec)`.  Returns the value together with the log messages the call
emits. -/
def time_difference (b e : Timeval) : Int × List LogMsg :=
  if e.tv_sec < b.tv_sec ∨ (e.tv_sec = b.tv_sec ∧ e.tv_usec < b.tv_usec) then
    (0, [LogMsg.timetravel b.tv_sec b.tv_usec e.tv_sec e.tv_usec])
  else
    ((e.tv_sec - b.tv_sec) * 1000000 + (e.tv_usec - b.tv_usec), [])

/-- The function `block_difference` (mod_accounting.c lines 139-173): clamp a negative
difference to 0 with a log message, else return `end - begin`. -/
def block_difference (b e : Int) : Int × List LogMsg :=
  if b > e then
    (0, [LogMsg.negblock b e])
  else
    (e - b, [])

/-- The chain-linking pointers of `request_rec` that both hooks traverse:
`main` (enclosing request of a sub-request), `prev` / `next` (internal
redirect chain at one level).  A null pointer is `none`. -/
structure ReqGraph (n : Nat) where
  main : Fin n → Option (Fin n)
  prev : Fin n → Option (Fin n)
  next : Fin n → Option (Fin n)

/-- A value stored in a `notes` table: either a printable string (the
published metrics, made with `apr_psprintf "%ld"`) or the raw `acc_data`
struct that `module_accounting_start` smuggles in via `apr_table_setn`. -/
inductive NoteVal where
  | str (s : String)
  | data (d : AccData)
deriving DecidableEq, Repr

/-- The `notes` tables of all request nodes: per node, a string-keyed
last-write-wins store. -/
def NotesState (n : Nat) : Type :=
  Fin n → String → Option NoteVal

/-- The effect of `apr_table_setn(node->notes, k, v)` on the store of one node. -/
def setNote {n : Nat} (st : NotesState n) (i : Fin n) (k : String) (v : NoteVal) :
    NotesState n :=
  fun j key => if j = i ∧ key = k then some v else st j key

/-- The keys used in the `notes` tables (mod_accounting.c lines 27-36). -/
def notes_key_internal : String := "ACC_INTERNAL"

def notes_key_time : String := "ACC_time"

def notes_key_utime : String := "ACC_utime"

def notes_key_stime : String := "ACC_stime"

def notes_key_cutime : String := "ACC_cutime"

def notes_key_cstime : String := "ACC_cstime"

def notes_key_inblock : String := "ACC_inblock"

def notes_key_oublock : String := "ACC_oublock"

def notes_key_cinblock : String := "ACC_cinblock"

def notes_key_coublock : String := "ACC_coublock"

/-- The nine metric keys, in the order `module_accounting_stop` writes
them. -/
def metric_keys : List String :=
  [notes_key_time, notes_key_utime, notes_key_stime,
   notes_key_inblock, notes_key_oublock,
   notes_key_cutime, notes_key_cstime,
   notes_key_cinblock, notes_key_coublock]

/-- One `while (f(x)) x = f(x)` pointer walk (`while (initial->main)`,
`while (initial->prev)`, `while (last->next)`), with explicit fuel.  `none`
means the fuel ran out, which cannot happen on an acyclic finite graph with
enough fuel. -/
def follow {α : Type} (f : α → Option α) : Nat → α → Option α
  | 0, _ => none
  | fuel + 1, x =>
    match f x with
    | none => some x
    | some y => follow f fuel y

/-- The first-node resolution both hooks perform: walk `main` up to the
top-level request, then walk `prev` to the head of the redirect chain
(mod_accounting.c lines 186-193 and 293-301). -/
def resolveFirst {n : Nat} (g : ReqGraph n) (fuel : Nat) (x : Fin n) :
    Option (Fin n) :=
  (follow g.main fuel x).bind (follow g.prev fuel)

/-- The last-node resolution of `module_accounting_stop`: walk `main` up to
the top-level request, then walk `next` to the tail of the redirect chain
(mod_accounting.c lines 293-305; `last` is taken from the node reached
after the `main` walk, before the `prev` walk runs). -/
def resolveLast {n : Nat} (g : ReqGraph n) (fuel : Nat) (x : Fin n) :
    Option (Fin n) :=
  (follow g.main fuel x).bind (follow g.next fuel)

/-- The outcomes of the system queries a hook performs: for each of
`gettimeofday`, `getrusage(RUSAGE_SELF)`, `getrusage(RUSAGE_CHILDREN)`,
whether the call succeeds and, on success, the value it writes. -/
structure SysEnv where
  time_ok : Bool
  time_val : Timeval
  self_ok : Bool
  self_val : Rusage
  child_ok : Bool
  child_val : Rusage
deriving DecidableEq, Repr

/-- The hook `module_accounting_start` (mod_accounting.c lines 182-272).

`garbage` is the content of the memory `apr_palloc` returns: `apr_palloc`
does not zero its allocation, so a field a failed system query leaves
unwritten keeps this indeterminate content.  The result is the new notes
state, the log messages emitted, and the hook's return value; `none` only
when the pointer walks run out of fuel. -/
def module_accounting_start {n : Nat} (g : ReqGraph n) (fuel : Nat)
    (env : SysEnv) (garbage : AccData) (st : NotesState n) (r : Fin n) :
    Option (NotesState n × List LogMsg × ApStatus) :=
  match resolveFirst g fuel r with
  | none => none
  | some ini =>
    match st ini notes_key_internal with
    | some _ => some (st, [], ApStatus.declined)
    | none =>
      let d1 := if env.time_ok
        then AccData.mk env.time_val garbage.begin_own_usage garbage.begin_child_usage
        else garbage
      let l1 : List LogMsg := if env.time_ok then [] else [LogMsg.beginTimeFail]
      let d2 := if env.self_ok
        then AccData.mk d1.begin_time env.self_val d1.begin_child_usage
        else d1
      let l2 : List LogMsg := if env.self_ok then [] else [LogMsg.beginSelfFail]
      let d3 := if env.child_ok
        then AccData.mk d2.begin_time d2.begin_own_usage env.child_val
        else d2
      let l3 : List LogMsg := if env.child_ok then [] else [LogMsg.beginChildFail]
      some (setNote st ini notes_key_internal (NoteVal.data d3),
            l1 ++ l2 ++ l3, ApStatus.declined)

/-- The nine (key, delta-with-logs) pairs `module_accounting_stop` computes
and publishes, in source order (mod_accounting.c lines 420-562). -/
def stop_metrics (d : AccData) (end_time : Timeval) (end_own end_child : Rusage) :
    List (String × (Int × List LogMsg)) :=
  [(notes_key_time, time_difference d.begin_time end_time),
   (notes_key_utime, time_difference d.begin_own_usage.ru_utime end_own.ru_utime),
   (notes_key_stime, time_difference d.begin_own_usage.ru_stime end_own.ru_stime),
   (notes_key_inblock, block_difference d.begin_own_usage.ru_inblock end_own.ru_inblock),
   (notes_key_oublock, block_difference d.begin_own_usage.ru_oublock end_own.ru_oublock),
   (notes_key_cutime, time_difference d.begin_child_usage.ru_utime end_child.ru_utime),
   (notes_key_cstime, time_difference d.begin_child_usage.ru_stime end_child.ru_stime),
   (notes_key_cinblock, block_difference d.begin_child_usage.ru_inblock end_child.ru_inblock),
   (notes_key_coublock, block_difference d.begin_child_usage.ru_oublock end_child.ru_oublock)]

/-- Run the sequence of `apr_table_setn(last->notes, key, apr_psprintf("%ld",
delta))` calls: each delta is printed in decimal and stored on `lst`, and
the log messages of the delta computations accumulate in order. -/
def publishAll {n : Nat} (st : NotesState n) (lst : Fin n) :
    List (String × (Int × List LogMsg)) → NotesState n × List LogMsg
  | [] => (st, [])
  | (k, v, l) :: rest =>
    let res := publishAll (setNote st lst k (NoteVal.str (toString v))) lst rest
    (res.1, l ++ res.2)

/-- The hook `module_accounting_stop` (mod_accounting.c lines 282-566).

The `wait4(-1, NULL, WNOHANG, NULL)` child reap has no effect on the
modelled state and is omitted.  `gT`, `gO`, `gC` are the indeterminate
contents of the stack locals `end_time`, `end_own_usage`,
`end_child_usage`, kept when the corresponding system query fails.  The
fuel-exhaustion case and the (module-unreachable) case of a string stored
under the internal key — where the C code would reinterpret arbitrary bytes
as an `acc_data` struct — are both mapped to `none`. -/
def module_accounting_stop {n : Nat} (g : ReqGraph n) (fuel : Nat)
    (env : SysEnv) (gT : Timeval) (gO gC : Rusage)
    (st : NotesState n) (r : Fin n) :
    Option (NotesState n × List LogMsg × ApStatus) :=
  match follow g.main fuel r with
  | none => none
  | some top =>
    match follow g.prev fuel top, follow g.next fuel top with
    | some ini, some lst =>
      match st ini notes_key_internal with
      | none => some (st, [LogMsg.missingData], ApStatus.declined)
      | some (NoteVal.str _) => none
      | some (NoteVal.data d) =>
        let end_time := if env.time_ok then env.time_val else gT
        let lT : List LogMsg := if env.time_ok then [] else [LogMsg.endTimeFail]
        let end_own := if env.self_ok then env.self_val else gO
        let lS : List LogMsg := if env.self_ok then [] else [LogMsg.endSelfFail]
        let end_child := if env.child_ok then env.child_val else gC
        let lC : List LogMsg := if env.child_ok then [] else [LogMsg.endChildFail]
        let pub := publishAll st lst (stop_metrics d end_time end_own end_child)
        some (pub.1, lT ++ lS ++ lC ++ pub.2, ApStatus.declined)
    | _, _ => none

/-- A well-formed `struct timeval`: microsecond component in
`[0, 1000000)`. -/
def usec_in_range (t : Timeval) : Prop :=
  0 ≤ t.tv_usec ∧ t.tv_usec < 1000000

instance (t : Timeval) : Decidable (usec_in_range t) := by
  unfold usec_in_range; infer_instance

/-- All microsecond components of a `struct rusage` in range. -/
def rusage_in_range (u : Rusage) : Prop :=
  usec_in_range u.ru_utime ∧ usec_in_range u.ru_stime

instance (u : Rusage) : Decidable (rusage_in_range u) := by
  unfold rusage_in_range; infer_instance

/-! ### Concrete fixtures used by witnesses -/

/-- Empty notes tables. -/
def emptyNotes (n : Nat) : NotesState n :=
  fun _ _ => none

/-- A concrete two-node graph: node 1 is an internal redirect successor of
node 0 (`0.next = 1`, `1.prev = 0`), no sub-requests. -/
def gW2 : ReqGraph 2 where
  main := fun _ => none
  prev := fun i => if i = 1 then some 0 else none
  next := fun i => if i = 0 then some 1 else none

/-- The three-node chain of C2: `A -> B -> C` as `0 -> 1 -> 2` via
`next`/`prev`, no node has a `main`. -/
def g3 : ReqGraph 3 where
  main := fun _ => none
  prev := fun i => if i = 2 then some 1 else if i = 1 then some 0 else none
  next := fun i => if i = 0 then some 1 else if i = 1 then some 2 else none

def tvW : Timeval := Timeval.mk 100 0

def ruW : Rusage := Rusage.mk (Timeval.mk 1 2) (Timeval.mk 3 4) 5 6

def ruW2 : Rusage := Rusage.mk (Timeval.mk 7 8) (Timeval.mk 9 10) 11 12

/-- Concrete non-zero allocation garbage. -/
def garW : AccData := AccData.mk (Timeval.mk 7 7) ruW2 ruW2

/-- An environment in which every system query succeeds. -/
def envW : SysEnv := SysEnv.mk true tvW true ruW true ruW

/-- A second all-success environment with different values. -/
def envW2 : SysEnv := SysEnv.mk true (Timeval.mk 200 0) true ruW2 true ruW2

/-- An environment whose `gettimeofday` fails. -/
def envFailTime : SysEnv := SysEnv.mk false (Timeval.mk 0 0) true ruW true ruW

/-- The `acc_data` that `module_accounting_start` stores under `envFailTime`
with garbage `garW`: the time field keeps the garbage, the usage fields get
the queried values. -/
def dFailStored : AccData := AccData.mk (Timeval.mk 7 7) ruW ruW

/-- A two-node state that already holds a begin snapshot on node 0. -/
def stData2 : NotesState 2 :=
  setNote (emptyNotes 2) 0 notes_key_internal (NoteVal.data garW)

/-- Concrete begin snapshot for the C3 witness, including a backward child
system time and a backward inblock counter. -/
def dW3 : AccData :=
  AccData.mk (Timeval.mk 1000 0)
    (Rusage.mk (Timeval.mk 0 500000) (Timeval.mk 0 250000) 50 10)
    (Rusage.mk (Timeval.mk 1 0) (Timeval.mk 2 999999) 5 6)

/-! ## Helper lemmas -/

theorem follow_of_none {α : Type} (f : α → Option α) (fuel : Nat) (x : α)
    (h : f x = none) : follow f (fuel + 1) x = some x := by
  simp [follow, h]

/-- A pointer walk whose single step strictly decreases a rank terminates
within any fuel exceeding the rank of the start node, and stops at a node
with a null pointer. -/
theorem follow_terminates {α : Type} (f : α → Option α) (rank : α → Nat)
    (hdec : ∀ x y, f x = some y → rank y < rank x) :
    ∀ fuel x, rank x < fuel → ∃ z, follow f fuel x = some z ∧ f z = none := by
  intro fuel
  induction fuel with
  | zero => intro x hx; omega
  | succ m ih =>
    intro x hx
    cases hfx : f x with
    | none => exact ⟨x, by simp [follow, hfx], hfx⟩
    | some y =>
      have hy : rank y < m := by
        have := hdec x y hfx
        omega
      obtain ⟨z, hz, hzn⟩ := ih y hy
      exact ⟨z, by simp [follow, hfx, hz], hzn⟩

theorem time_difference_nonneg (b e : Timeval)
    (hb : usec_in_range b) (he : usec_in_range e) :
    0 ≤ (time_difference b e).1 := by
  obtain ⟨hb0, hb1⟩ := hb
  obtain ⟨he0, he1⟩ := he
  unfold time_difference
  split
  · simp
  · rename_i hc
    simp only
    omega

theorem block_difference_nonneg (b e : Int) : 0 ≤ (block_difference b e).1 := by
  unfold block_difference
  split
  · simp
  · simp; omega

/-- What `module_accounting_start` does when the reserved key is still
free: the stored snapshot takes each queried value on success and keeps the
allocation garbage on failure, and each failure is logged. -/
theorem start_run {n : Nat} (g : ReqGraph n) (fuel : Nat) (env : SysEnv)
    (garbage : AccData) (st : NotesState n) (r i : Fin n)
    (hres : resolveFirst g fuel r = some i)
    (hnone : st i notes_key_internal = none) :
    module_accounting_start g fuel env garbage st r
      = some (setNote st i notes_key_internal (NoteVal.data
          (AccData.mk
            (if env.time_ok then env.time_val else garbage.begin_time)
            (if env.self_ok then env.self_val else garbage.begin_own_usage)
            (if env.child_ok then env.child_val else garbage.begin_child_usage))),
        (if env.time_ok then [] else [LogMsg.beginTimeFail]) ++
        (if env.self_ok then [] else [LogMsg.beginSelfFail]) ++
        (if env.child_ok then [] else [LogMsg.beginChildFail]),
        ApStatus.declined) := by
  obtain ⟨tb, tv, sb, sv, cb, cv⟩ := env
  cases tb <;> cases sb <;> cases cb <;>
    simp [module_accounting_start, hres, hnone]

/-- What `module_accounting_stop` does when a begin snapshot is present. -/
theorem stop_run {n : Nat} (g : ReqGraph n) (fuel : Nat) (env : SysEnv)
    (gT : Timeval) (gO gC : Rusage) (st : NotesState n)
    (r top ini lst : Fin n) (d : AccData)
    (hm : follow g.main fuel r = some top)
    (hp : follow g.prev fuel top = some ini)
    (hn : follow g.next fuel top = some lst)
    (hd : st ini notes_key_internal = some (NoteVal.data d)) :
    module_accounting_stop g fuel env gT gO gC st r
      = some ((publishAll st lst (stop_metrics d
            (if env.time_ok then env.time_val else gT)
            (if env.self_ok then env.self_val else gO)
            (if env.child_ok then env.child_val else gC))).1,
          (if env.time_ok then [] else [LogMsg.endTimeFail]) ++
          (if env.self_ok then [] else [LogMsg.endSelfFail]) ++
          (if env.child_ok then [] else [LogMsg.endChildFail]) ++
          (publishAll st lst (stop_metrics d
            (if env.time_ok then env.time_val else gT)
            (if env.self_ok then env.self_val else gO)
            (if env.child_ok then env.child_val else gC))).2,
          ApStatus.declined) := by
  simp [module_accounting_stop, hm, hp, hn, hd]

/-- The keys of `stop_metrics` are exactly `metric_keys`. -/
theorem stop_metrics_keys (d : AccData) (a : Timeval) (b c : Rusage) :
    (stop_metrics d a b c).map Prod.fst = metric_keys :=
  rfl

/-- Frame property: `publishAll` leaves every entry outside the written keys of the target
node untouched. -/
theorem publishAll_frame {n : Nat} (lst : Fin n) :
    ∀ (ms : List (String × (Int × List LogMsg))) (st : NotesState n)
      (j : Fin n) (k : String),
      ¬(j = lst ∧ k ∈ ms.map Prod.fst) → (publishAll st lst ms).1 j k = st j k := by
  intro ms
  induction ms with
  | nil => intro st j k h; rfl
  | cons p rest ih =>
    intro st j k h
    obtain ⟨k0, v0, l0⟩ := p
    have h1 : ¬(j = lst ∧ k ∈ rest.map Prod.fst) := by
      intro hc
      exact h ⟨hc.1, by simp [hc.2]⟩
    show (publishAll (setNote st lst k0 (NoteVal.str (toString v0))) lst rest).1 j k
        = st j k
    rw [ih _ j k h1]
    unfold setNote
    rw [if_neg]
    intro hc
    exact h ⟨hc.1, by simp [hc.2]⟩

/-- Coverage property: `publishAll` stores a string under every written key of the target
node. -/
theorem publishAll_written {n : Nat} (lst : Fin n) :
    ∀ (ms : List (String × (Int × List LogMsg))) (st : NotesState n) (k : String),
      k ∈ ms.map Prod.fst →
      ∃ s, (publishAll st lst ms).1 lst k = some (NoteVal.str s) := by
  intro ms
  induction ms with
  | nil => intro st k h; simp at h
  | cons p rest ih =>
    intro st k hk
    obtain ⟨k0, v0, l0⟩ := p
    by_cases hr : k ∈ rest.map Prod.fst
    · exact ih _ k hr
    · have hk0 : k = k0 := by
        simp only [List.map_cons, List.mem_cons] at hk
        tauto
      subst hk0
      refine ⟨toString v0, ?_⟩
      show (publishAll (setNote st lst k (NoteVal.str (toString v0))) lst rest).1 lst k
          = some (NoteVal.str (toString v0))
      rw [publishAll_frame lst rest _ lst k (by simp [hr])]
      simp [setNote]

/-! ## The claims -/

/-- Claim C1: for every pair of time values with `end >= begin` under
lexicographic comparison (whole seconds first, microseconds as tiebreak),
`time_difference` returns exactly
`(end.tv_sec - begin.tv_sec) * 1000000 + (end.tv_usec - begin.tv_usec)`. -/
theorem time_difference_formula (b e : Timeval)
    (h : b.tv_sec < e.tv_sec ∨ (b.tv_sec = e.tv_sec ∧ b.tv_usec ≤ e.tv_usec)) :
    (time_difference b e).1
      = (e.tv_sec - b.tv_sec) * 1000000 + (e.tv_usec - b.tv_usec) := by
  have hc : ¬ (e.tv_sec < b.tv_sec ∨ (e.tv_sec = b.tv_sec ∧ e.tv_usec < b.tv_usec)) := by
    omega
  simp [time_difference, hc]

/-- Witness for C1 at `begin = 1000.000000`, `end = 1002.250000`. -/
theorem time_difference_formula_witness :
    ((1000 : Int) < 1002 ∨ ((1000 : Int) = 1002 ∧ (0 : Int) ≤ 250000)) ∧
    (time_difference (Timeval.mk 1000 0) (Timeval.mk 1002 250000)).1
      = (1002 - 1000) * 1000000 + (250000 - 0) :=
  ⟨Or.inl (by decide),
   time_difference_formula (Timeval.mk 1000 0) (Timeval.mk 1002 250000)
     (Or.inl (by decide))⟩

/-- Claim C2: on the chain `A -> B -> C` (nodes `0 -> 1 -> 2` of `g3`,
linked via `next`/`prev`, no `main`), `module_accounting_start` invoked on
`C` stores the begin snapshot in `A`'s notes under the reserved key and
touches no other node, and `module_accounting_stop` invoked on `B`
publishes all nine metrics into `C`'s notes. -/
theorem chain3_start_stop (env1 env2 : SysEnv) (garbage : AccData)
    (gT : Timeval) (gO gC : Rusage) :
    ∃ st1 l1 d st2 l2,
      module_accounting_start g3 3 env1 garbage (emptyNotes 3) 2
        = some (st1, l1, ApStatus.declined) ∧
      st1 0 notes_key_internal = some (NoteVal.data d) ∧
      (∀ k, st1 1 k = none) ∧
      (∀ k, st1 2 k = none) ∧
      module_accounting_stop g3 3 env2 gT gO gC st1 1
        = some (st2, l2, ApStatus.declined) ∧
      (∀ k ∈ metric_keys, ∃ s, st2 2 k = some (NoteVal.str s)) := by
  have hres : resolveFirst g3 3 2 = some 0 := by decide
  have hnone : emptyNotes 3 0 notes_key_internal = none := rfl
  have hrun := start_run g3 3 env1 garbage (emptyNotes 3) 2 0 hres hnone
  set D : AccData := AccData.mk
      (if env1.time_ok then env1.time_val else garbage.begin_time)
      (if env1.self_ok then env1.self_val else garbage.begin_own_usage)
      (if env1.child_ok then env1.child_val else garbage.begin_child_usage) with hD
  have hd1 : setNote (emptyNotes 3) 0 notes_key_internal (NoteVal.data D)
      0 notes_key_internal = some (NoteVal.data D) := by
    simp [setNote]
  have hstop := stop_run g3 3 env2 gT gO gC
      (setNote (emptyNotes 3) 0 notes_key_internal (NoteVal.data D)) 1 1 0 2 D
      (by decide) (by decide) (by decide) hd1
  refine ⟨_, _, D, _, _, hrun, hd1, ?_, ?_, hstop, ?_⟩
  · intro k
    simp [setNote, emptyNotes]
  · intro k
    simp [setNote, emptyNotes]
  · intro k hk
    refine publishAll_written 2 _ _ k ?_
    rw [stop_metrics_keys]
    exact hk

/-- Claim C3: every value `module_accounting_stop` publishes onto the last
node's notes is non-negative, whenever every time value involved has its
microsecond component in `[0, 1000000)` (block deltas are non-negative
unconditionally): the negative cases are detected and clamped to 0, and a
negative value is never published. -/
theorem stop_metrics_nonneg (d : AccData) (end_time : Timeval)
    (end_own end_child : Rusage)
    (hbt : usec_in_range d.begin_time)
    (hbo : rusage_in_range d.begin_own_usage)
    (hbc : rusage_in_range d.begin_child_usage)
    (het : usec_in_range end_time)
    (heo : rusage_in_range end_own)
    (hec : rusage_in_range end_child) :
    ∀ p ∈ stop_metrics d end_time end_own end_child, 0 ≤ p.2.1 := by
  intro p hp
  simp only [stop_metrics, List.mem_cons, List.not_mem_nil, or_false] at hp
  rcases hp with rfl | rfl | rfl | rfl | rfl | rfl | rfl | rfl | rfl
  · exact time_difference_nonneg _ _ hbt het
  · exact time_difference_nonneg _ _ hbo.1 heo.1
  · exact time_difference_nonneg _ _ hbo.2 heo.2
  · exact block_difference_nonneg _ _
  · exact block_difference_nonneg _ _
  · exact time_difference_nonneg _ _ hbc.1 hec.1
  · exact time_difference_nonneg _ _ hbc.2 hec.2
  · exact block_difference_nonneg _ _
  · exact block_difference_nonneg _ _

/-- Witness for C3 on `dW3` against a concrete end snapshot (the child
system time and the own inblock counter go backward and are clamped). -/
theorem stop_metrics_nonneg_witness :
    usec_in_range dW3.begin_time ∧
    rusage_in_range dW3.begin_own_usage ∧
    rusage_in_range dW3.begin_child_usage ∧
    usec_in_range (Timeval.mk 1002 250000) ∧
    rusage_in_range (Rusage.mk (Timeval.mk 0 900000) (Timeval.mk 1 0) 30 90) ∧
    rusage_in_range (Rusage.mk (Timeval.mk 1 500000) (Timeval.mk 2 0) 7 8) ∧
    (∀ p ∈ stop_metrics dW3 (Timeval.mk 1002 250000)
        (Rusage.mk (Timeval.mk 0 900000) (Timeval.mk 1 0) 30 90)
        (Rusage.mk (Timeval.mk 1 500000) (Timeval.mk 2 0) 7 8), 0 ≤ p.2.1) :=
  ⟨by decide, by decide, by decide, by decide, by decide, by decide,
   stop_metrics_nonneg dW3 (Timeval.mk 1002 250000)
     (Rusage.mk (Timeval.mk 0 900000) (Timeval.mk 1 0) 30 90)
     (Rusage.mk (Timeval.mk 1 500000) (Timeval.mk 2 0) 7 8)
     (by decide) (by decide) (by decide) (by decide) (by decide) (by decide)⟩

/-- Claim C4: `module_accounting_start` is idempotent per chain.  For any
two nodes resolving to the same canonical first node `i`, the first call
leaves a snapshot under the reserved key of `i` and touches nothing else;
the second call — with an arbitrary different environment and allocation —
detects the existing key, captures and overwrites nothing, emits no log,
and returns `DECLINED`. -/
theorem start_idempotent {n : Nat} (g : ReqGraph n) (fuel : Nat)
    (env1 env2 : SysEnv) (gar1 gar2 : AccData) (st : NotesState n)
    (r1 r2 i : Fin n)
    (h1 : resolveFirst g fuel r1 = some i)
    (h2 : resolveFirst g fuel r2 = some i) :
    ∃ st1 l1,
      module_accounting_start g fuel env1 gar1 st r1
        = some (st1, l1, ApStatus.declined) ∧
      st1 i notes_key_internal ≠ none ∧
      (∀ j k, ¬(j = i ∧ k = notes_key_internal) → st1 j k = st j k) ∧
      module_accounting_start g fuel env2 gar2 st1 r2
        = some (st1, [], ApStatus.declined) := by
  cases hv : st i notes_key_internal with
  | some v =>
    refine ⟨st, [], ?_, ?_, ?_, ?_⟩
    · simp [module_accounting_start, h1, hv]
    · simp [hv]
    · intro j k hjk
      rfl
    · simp [module_accounting_start, h2, hv]
  | none =>
    have hrun := start_run g fuel env1 gar1 st r1 i h1 hv
    refine ⟨_, _, hrun, ?_, ?_, ?_⟩
    · simp [setNote]
    · intro j k hjk
      unfold setNote
      rw [if_neg hjk]
    · have hsome : setNote st i notes_key_internal
          (NoteVal.data (AccData.mk
            (if env1.time_ok then env1.time_val else gar1.begin_time)
            (if env1.self_ok then env1.self_val else gar1.begin_own_usage)
            (if env1.child_ok then env1.child_val else gar1.begin_child_usage)))
          i notes_key_internal ≠ none := by
        simp [setNote]
      simp only [module_accounting_start, h2]
      cases hw : setNote st i notes_key_internal
          (NoteVal.data (AccData.mk
            (if env1.time_ok then env1.time_val else gar1.begin_time)
            (if env1.self_ok then env1.self_val else gar1.begin_own_usage)
            (if env1.child_ok then env1.child_val else gar1.begin_child_usage)))
          i notes_key_internal with
      | none => exact absurd hw hsome
      | some w => rfl

/-- Witness for C4 on `gW2`: both node 1 and node 0 resolve to node 0. -/
theorem start_idempotent_witness :
    resolveFirst gW2 3 1 = some 0 ∧
    resolveFirst gW2 3 0 = some 0 ∧
    (∃ st1 l1,
      module_accounting_start gW2 3 envW garW (emptyNotes 2) 1
        = some (st1, l1, ApStatus.declined) ∧
      st1 0 notes_key_internal ≠ none ∧
      (∀ j k, ¬(j = 0 ∧ k = notes_key_internal) → st1 j k = emptyNotes 2 j k) ∧
      module_accounting_start gW2 3 envW2 garW st1 0
        = some (st1, [], ApStatus.declined)) :=
  ⟨by decide, by decide,
   start_idempotent gW2 3 envW envW2 garW garW (emptyNotes 2) 1 0 0
     (by decide) (by decide)⟩

/-- Claim C5: if `end` is strictly earlier than `begin` lexicographically,
`time_difference` returns 0 and logs exactly one timetravel anomaly carrying
both values. -/
theorem time_difference_timetravel (b e : Timeval)
    (h : e.tv_sec < b.tv_sec ∨ (e.tv_sec = b.tv_sec ∧ e.tv_usec < b.tv_usec)) :
    time_difference b e
      = (0, [LogMsg.timetravel b.tv_sec b.tv_usec e.tv_sec e.tv_usec]) := by
  simp [time_difference, h]

/-- Witness for C5 at `begin = 5.000007`, `end = 5.000003`. -/
theorem time_difference_timetravel_witness :
    ((5 : Int) < 5 ∨ ((5 : Int) = 5 ∧ (3 : Int) < 7)) ∧
    time_difference (Timeval.mk 5 7) (Timeval.mk 5 3)
      = (0, [LogMsg.timetravel 5 7 5 3]) :=
  ⟨Or.inr (by decide),
   time_difference_timetravel (Timeval.mk 5 7) (Timeval.mk 5 3)
     (Or.inr (by decide))⟩

/-- Claim C6: for non-negative counters, `block_difference` returns
`end - begin` with no log when `end >= begin`, and returns 0 with exactly
one anomaly carrying both values when `begin > end`. -/
theorem block_difference_spec (b e : Int) (hb : 0 ≤ b) (he : 0 ≤ e) :
    (b ≤ e → block_difference b e = (e - b, [])) ∧
    (e < b → block_difference b e = (0, [LogMsg.negblock b e])) := by
  constructor
  · intro hle
    have hc : ¬ b > e := by omega
    simp [block_difference, hc]
  · intro hlt
    have hc : b > e := hlt
    simp [block_difference, hc]

/-- Witness for C6 at `begin = 50`, `end = 30`. -/
theorem block_difference_spec_witness :
    (0 : Int) ≤ 50 ∧ (0 : Int) ≤ 30 ∧
    (((50 : Int) ≤ 30 → block_difference 50 30 = (30 - 50, [])) ∧
     ((30 : Int) < 50 → block_difference 50 30 = (0, [LogMsg.negblock 50 30]))) :=
  ⟨by decide, by decide, block_difference_spec 50 30 (by decide) (by decide)⟩

/-- Claim C7: when the canonical first node of the chain holds no begin
snapshot under the reserved key, `module_accounting_stop` logs exactly one
missing-data error, publishes nothing, leaves every notes table unchanged,
and returns `DECLINED` without aborting the request. -/
theorem stop_missing {n : Nat} (g : ReqGraph n) (fuel : Nat) (env : SysEnv)
    (gT : Timeval) (gO gC : Rusage) (st : NotesState n)
    (r top ini lst : Fin n)
    (hm : follow g.main fuel r = some top)
    (hp : follow g.prev fuel top = some ini)
    (hn : follow g.next fuel top = some lst)
    (hmiss : st ini notes_key_internal = none) :
    module_accounting_stop g fuel env gT gO gC st r
      = some (st, [LogMsg.missingData], ApStatus.declined) := by
  simp [module_accounting_stop, hm, hp, hn, hmiss]

/-- Witness for C7 on `gW2` from the empty state. -/
theorem stop_missing_witness :
    follow gW2.main 3 1 = some 1 ∧
    follow gW2.prev 3 1 = some 0 ∧
    follow gW2.next 3 1 = some 1 ∧
    emptyNotes 2 0 notes_key_internal = none ∧
    module_accounting_stop gW2 3 envW tvW ruW ruW (emptyNotes 2) 1
      = some (emptyNotes 2, [LogMsg.missingData], ApStatus.declined) :=
  ⟨by decide, by decide, by decide, rfl,
   stop_missing gW2 3 envW tvW ruW ruW (emptyNotes 2) 1 1 0 1
     (by decide) (by decide) (by decide) rfl⟩

/-- Claim C8, as stated, is false on the code: `apr_palloc` does not zero
its allocation, so a field a failed `gettimeofday` leaves unwritten holds
the allocation's indeterminate content, not zero.  Concretely, with
allocation content `garW` (time field `7.000007`) and a failing time query,
the stored snapshot's time field is `7.000007`, not `0.000000` — while the
failure is logged and the hook still returns `DECLINED`. -/
theorem start_zero_value_counterexample :
    module_accounting_start gW2 3 envFailTime garW (emptyNotes 2) 0
      = some (setNote (emptyNotes 2) 0 notes_key_internal (NoteVal.data dFailStored),
              [LogMsg.beginTimeFail], ApStatus.declined) ∧
    dFailStored.begin_time ≠ Timeval.mk 0 0 :=
  ⟨rfl, by decide⟩

/-- Claim C8 (amended): if a system query fails in
`module_accounting_start`, the failure is logged, the operation still
stores a snapshot and returns `DECLINED` (no abort), and the corresponding
snapshot field is left at the allocation's prior (indeterminate) content
rather than being reset to zero. -/
theorem start_queryfail_amended {n : Nat} (g : ReqGraph n) (fuel : Nat)
    (env : SysEnv) (garbage : AccData) (st : NotesState n) (r i : Fin n)
    (hres : resolveFirst g fuel r = some i)
    (hnone : st i notes_key_internal = none) :
    ∃ st1 l1 d,
      module_accounting_start g fuel env garbage st r
        = some (st1, l1, ApStatus.declined) ∧
      st1 i notes_key_internal = some (NoteVal.data d) ∧
      (env.time_ok = false →
        LogMsg.beginTimeFail ∈ l1 ∧ d.begin_time = garbage.begin_time) ∧
      (env.self_ok = false →
        LogMsg.beginSelfFail ∈ l1 ∧ d.begin_own_usage = garbage.begin_own_usage) ∧
      (env.child_ok = false →
        LogMsg.beginChildFail ∈ l1 ∧ d.begin_child_usage = garbage.begin_child_usage) := by
  refine ⟨_, _, AccData.mk
      (if env.time_ok then env.time_val else garbage.begin_time)
      (if env.self_ok then env.self_val else garbage.begin_own_usage)
      (if env.child_ok then env.child_val else garbage.begin_child_usage),
    start_run g fuel env garbage st r i hres hnone,
    by simp [setNote], ?_, ?_, ?_⟩
  · intro ht
    constructor
    · simp [ht]
    · simp [ht]
  · intro hs
    constructor
    · simp [hs]
    · simp [hs]
  · intro hc
    constructor
    · simp [hc]
    · simp [hc]

/-- Witness for the amended C8 on `gW2` with a failing time query. -/
theorem start_queryfail_amended_witness :
    resolveFirst gW2 3 1 = some 0 ∧
    emptyNotes 2 0 notes_key_internal = none ∧
    (∃ st1 l1 d,
      module_accounting_start gW2 3 envFailTime garW (emptyNotes 2) 1
        = some (st1, l1, ApStatus.declined) ∧
      st1 0 notes_key_internal = some (NoteVal.data d) ∧
      (envFailTime.time_ok = false →
        LogMsg.beginTimeFail ∈ l1 ∧ d.begin_time = garW.begin_time) ∧
      (envFailTime.self_ok = false →
        LogMsg.beginSelfFail ∈ l1 ∧ d.begin_own_usage = garW.begin_own_usage) ∧
      (envFailTime.child_ok = false →
        LogMsg.beginChildFail ∈ l1 ∧ d.begin_child_usage = garW.begin_child_usage)) :=
  ⟨by decide, rfl,
   start_queryfail_amended gW2 3 envFailTime garW (emptyNotes 2) 1 0
     (by decide) rfl⟩

/-- Claim C9: the first/last-node resolutions are total on every finite
acyclic chain graph — acyclicity being witnessed by rank functions that
strictly decrease along `main`, `prev` and `next` — and a node with no
`main` and no `prev` (resp. no `next`) resolves to itself.  The resolutions
are pure functions of the graph and the start node alone: they read and
write no notes state. -/
theorem resolve_total_and_fixed {n : Nat} (g : ReqGraph n)
    (rankM rankP rankN : Fin n → Nat) (fuel : Nat) (x : Fin n)
    (hM : ∀ a b, g.main a = some b → rankM b < rankM a)
    (hP : ∀ a b, g.prev a = some b → rankP b < rankP a)
    (hN : ∀ a b, g.next a = some b → rankN b < rankN a)
    (hfuel : ∀ y, rankM y < fuel ∧ rankP y < fuel ∧ rankN y < fuel) :
    (∃ z, resolveFirst g fuel x = some z ∧ g.prev z = none) ∧
    (∃ z, resolveLast g fuel x = some z ∧ g.next z = none) ∧
    (g.main x = none → g.prev x = none → resolveFirst g fuel x = some x) ∧
    (g.main x = none → g.next x = none → resolveLast g fuel x = some x) := by
  obtain ⟨top, htop, htopn⟩ :=
    follow_terminates g.main rankM hM fuel x (hfuel x).1
  have hfuel1 : ∃ m, fuel = m + 1 := by
    have := (hfuel x).1
    exact ⟨fuel - 1, by omega⟩
  obtain ⟨m, rfl⟩ := hfuel1
  refine ⟨?_, ?_, ?_, ?_⟩
  · obtain ⟨z, hz, hzn⟩ :=
      follow_terminates g.prev rankP hP (m + 1) top (hfuel top).2.1
    exact ⟨z, by simp [resolveFirst, htop, hz], hzn⟩
  · obtain ⟨z, hz, hzn⟩ :=
      follow_terminates g.next rankN hN (m + 1) top (hfuel top).2.2
    exact ⟨z, by simp [resolveLast, htop, hz], hzn⟩
  · intro hmx hpx
    simp [resolveFirst, follow_of_none _ _ _ hmx, follow_of_none _ _ _ hpx]
  · intro hmx hnx
    simp [resolveLast, follow_of_none _ _ _ hmx, follow_of_none _ _ _ hnx]

/-- Witness for C9 on `gW2` with fuel 3, starting from node 0. -/
theorem resolve_total_and_fixed_witness :
    (∀ a b, gW2.main a = some b → (0 : Nat) < 0) ∧
    (∀ a b, gW2.prev a = some b →
      (if b = (1 : Fin 2) then 1 else 0) < (if a = (1 : Fin 2) then 1 else 0)) ∧
    (∀ a b, gW2.next a = some b →
      (if b = (0 : Fin 2) then 1 else 0) < (if a = (0 : Fin 2) then 1 else 0)) ∧
    ((∃ z, resolveFirst gW2 3 0 = some z ∧ gW2.prev z = none) ∧
     (∃ z, resolveLast gW2 3 0 = some z ∧ gW2.next z = none) ∧
     (gW2.main 0 = none → gW2.prev 0 = none → resolveFirst gW2 3 0 = some 0) ∧
     (gW2.main 0 = none → gW2.next 0 = none → resolveLast gW2 3 0 = some 0)) :=
  ⟨by decide, by decide, by decide,
   resolve_total_and_fixed gW2 (fun _ => 0)
     (fun i => if i = 1 then 1 else 0) (fun i => if i = 0 then 1 else 0)
     3 0 (by decide) (by decide) (by decide) (by decide)⟩

/-- Claim C10: with a begin snapshot present, `module_accounting_stop`
writes exactly the nine metric keys on the last node and modifies no other
entry of any notes table; in particular the begin snapshot under the
reserved key survives unchanged, so a second stop call on the same chain
finds the same snapshot and publishes the metrics again. -/
theorem stop_frame {n : Nat} (g : ReqGraph n) (fuel : Nat)
    (env env2 : SysEnv) (gT gT2 : Timeval) (gO gC gO2 gC2 : Rusage)
    (st : NotesState n) (r top ini lst : Fin n) (d : AccData)
    (hm : follow g.main fuel r = some top)
    (hp : follow g.prev fuel top = some ini)
    (hn : follow g.next fuel top = some lst)
    (hd : st ini notes_key_internal = some (NoteVal.data d)) :
    ∃ st2 l2,
      module_accounting_stop g fuel env gT gO gC st r
        = some (st2, l2, ApStatus.declined) ∧
      (∀ j k, ¬(j = lst ∧ k ∈ metric_keys) → st2 j k = st j k) ∧
      (∀ k ∈ metric_keys, ∃ s, st2 lst k = some (NoteVal.str s)) ∧
      st2 ini notes_key_internal = some (NoteVal.data d) ∧
      (∃ st3 l3,
        module_accounting_stop g fuel env2 gT2 gO2 gC2 st2 r
          = some (st3, l3, ApStatus.declined) ∧
        ∀ k ∈ metric_keys, ∃ s, st3 lst k = some (NoteVal.str s)) := by
  have hrun := stop_run g fuel env gT gO gC st r top ini lst d hm hp hn hd
  have hframe : ∀ j k, ¬(j = lst ∧ k ∈ metric_keys) →
      (publishAll st lst (stop_metrics d
        (if env.time_ok then env.time_val else gT)
        (if env.self_ok then env.self_val else gO)
        (if env.child_ok then env.child_val else gC))).1 j k = st j k := by
    intro j k hjk
    refine publishAll_frame lst _ st j k ?_
    rw [stop_metrics_keys]
    exact hjk
  have hint : (publishAll st lst (stop_metrics d
      (if env.time_ok then env.time_val else gT)
      (if env.self_ok then env.self_val else gO)
      (if env.child_ok then env.child_val else gC))).1 ini notes_key_internal
      = some (NoteVal.data d) := by
    rw [hframe ini notes_key_internal ?_]
    · exact hd
    · intro hc
      have : notes_key_internal ∈ metric_keys := hc.2
      revert this
      decide
  refine ⟨_, _, hrun, hframe, ?_, hint, ?_⟩
  · intro k hk
    refine publishAll_written lst _ st k ?_
    rw [stop_metrics_keys]
    exact hk
  · have hrun2 := stop_run g fuel env2 gT2 gO2 gC2 _ r top ini lst d hm hp hn hint
    refine ⟨_, _, hrun2, ?_⟩
    intro k hk
    refine publishAll_written lst _ _ k ?_
    rw [stop_metrics_keys]
    exact hk

/-- Witness for C10 on `gW2` from `stData2` (snapshot on node 0, last node
is node 1). -/
theorem stop_frame_witness :
    follow gW2.main 3 0 = some 0 ∧
    follow gW2.prev 3 0 = some 0 ∧
    follow gW2.next 3 0 = some 1 ∧
    stData2 0 notes_key_internal = some (NoteVal.data garW) ∧
    (∃ st2 l2,
      module_accounting_stop gW2 3 envW tvW ruW ruW stData2 0
        = some (st2, l2, ApStatus.declined) ∧
      (∀ j k, ¬(j = 1 ∧ k ∈ metric_keys) → st2 j k = stData2 j k) ∧
      (∀ k ∈ metric_keys, ∃ s, st2 1 k = some (NoteVal.str s)) ∧
      st2 0 notes_key_internal = some (NoteVal.data garW) ∧
      (∃ st3 l3,
        module_accounting_stop gW2 3 envW2 tvW ruW ruW st2 0
          = some (st3, l3, ApStatus.declined) ∧
        ∀ k ∈ metric_keys, ∃ s, st3 1 k = some (NoteVal.str s))) :=
  ⟨by decide, by decide, by decide, by simp [stData2, setNote],
   stop_frame gW2 3 envW envW2 tvW tvW ruW ruW ruW ruW stData2 0 0 0 1 garW
     (by decide) (by decide) (by decide) (by simp [stData2, setNote])⟩

end ModAccounting
